import Mathlib

/-!
Verification of the fleet decarbonization cost model implemented by
`run_fleet_optimization` in `src/app.py`: the per-(ship, year) discounted
cost streams (baseline, retrofit, newbuild-per-fuel), the NPV delta
aggregation, the binary decision model (feasibility constraints and linear
objective), the post-solve reporting stage, and the lookup semantics of the
reference-data dictionaries.

Modelling conventions:
* all monetary and physical quantities are exact rationals (`ℚ`);
* Python dictionary indexing that can raise `KeyError` is modelled in a
  separate error-aware layer (`DictInputs`, `baseline_costE`, `retro_costE`,
  `new_cost_opE`) where a missing key yields `none`;
* `dict.get(key, 0)` is modelled by `Option.getD _ 0`;
* Python float division raising `ZeroDivisionError` on a zero denominator is
  modelled by `pydiv` returning an `Except` error.
-/

namespace FleetOpt

/-- Fuel kinds used by the model: the two baseline fuels (`BASIC = "Diesel"`,
`"Hfo"`) and the three alternative newbuild fuels (`OTHERS` in the source). -/
inductive Fuel
  | diesel
  | hfo
  | lpg
  | methanol
  | ammonia
deriving DecidableEq

/-- One row of `tech_fuel_data2.csv` as used through `fuel_lu[(year, fuel)]`:
energy density, price, CO₂ emission factor and maintenance rate. -/
structure FuelQuote where
  energyMJperKg : ℚ
  priceUSDperKg : ℚ
  co2gPerMJ : ℚ
  maintUSDperKW : ℚ
deriving DecidableEq

/-- Aggregated route data of one ship (`energy_groups[ship]`): total
wake-to-wheel voyage energy `MJ_v` and its ECA part `MJ_e`; `MJ_n` and
`share` are derived exactly as in the source. -/
structure RouteAgg where
  mjVoy : ℚ
  mjEca : ℚ
deriving DecidableEq

/-- Static data of one ship as read from the fleet table, the newbuild specs
table and the route aggregation.  `mjOld` is `row.get("Energy_per_km ...")`,
which may be missing (`none`), and `route` is `energy_groups.get(s, ...)`,
`none` for a ship absent from the route data. -/
structure ShipData where
  name : String
  voy : ℚ
  power : ℚ
  mjOld : Option ℚ
  mjNew : ℚ
  pNew : ℚ
  route : Option RouteAgg
deriving DecidableEq

/-- The externally supplied tables: `fuel_lu`, the three price dictionaries
(sliders), and the optional retrofit/newbuild cost tables.  In this layer the
mandatory lookups are total functions (all required keys present); the
error-propagating layer `DictInputs` below models missing keys. -/
structure Inputs where
  fuelLu : ℕ → Fuel → FuelQuote
  co2Prices : ℕ → ℚ
  dieselPrices : ℕ → ℚ
  hfoPrices : ℕ → ℚ
  tCost : String → ℕ → Option ℚ
  tSave : String → ℕ → Option ℚ
  nCost : String → Fuel → ℕ → Option ℚ

/-- `BASIC = "Diesel"`. -/
def BASIC : Fuel := .diesel

/-- `OTHERS = ["Lpg", "Green Methanol", "Green Ammonia"]`. -/
def OTHERS : List Fuel := [.lpg, .methanol, .ammonia]

/-- `YEARS_DEC = list(range(2025, 2051, 5))`. -/
def YEARS_DEC : List ℕ := [2025, 2030, 2035, 2040, 2045, 2050]

/-- `YEARS_FULL = list(range(2025, 2051))`. -/
def YEARS_FULL : List ℕ :=
  [2025, 2026, 2027, 2028, 2029, 2030, 2031, 2032, 2033, 2034, 2035, 2036, 2037,
   2038, 2039, 2040, 2041, 2042, 2043, 2044, 2045, 2046, 2047, 2048, 2049, 2050]

/-- `discount = 0.07`. -/
def discount : ℚ := 7 / 100

/-- `dfac = lambda y: 1 / ((1 + discount) ** (y - 2025))`. -/
def dfac (y : ℕ) : ℚ := 1 / (1 + discount) ^ (y - 2025)

/-- `MJv`: total voyage energy; `0.0` for a ship absent from the route data
(`energy_groups.get(s, {...: 0.0})`). -/
def MJv (sd : ShipData) : ℚ :=
  match sd.route with
  | none => 0
  | some r => r.mjVoy

/-- `MJe`: ECA part of the voyage energy, `0.0` when absent. -/
def MJe (sd : ShipData) : ℚ :=
  match sd.route with
  | none => 0
  | some r => r.mjEca

/-- `MJn = tot_mj - tot_mj_eca` (and `0.0 - 0.0` for an absent ship). -/
def MJn (sd : ShipData) : ℚ := MJv sd - MJe sd

/-- `share = (tot_mj_eca / tot_mj) if tot_mj > 0 else 0.0`. -/
def share (sd : ShipData) : ℚ := if 0 < MJv sd then MJe sd / MJv sd else 0

/-- `factor = (MJnew / MJold) if MJold else 1.0`: Python treats a missing
(`None`) or zero `MJold` as falsy, selecting the unit fallback. -/
def factor (sd : ShipData) : ℚ :=
  match sd.mjOld with
  | none => 1
  | some v => if v = 0 then 1 else sd.mjNew / v

/-- 6.1.1 `cost_eca`: Diesel fuel cost of the ECA energy, guarded by `MJe > 0`. -/
def cost_eca (I : Inputs) (sd : ShipData) (y : ℕ) : ℚ :=
  if 0 < MJe sd then
    MJe sd * sd.voy / (I.fuelLu y BASIC).energyMJperKg * I.dieselPrices y
  else 0

/-- 6.1.2 `cost_noeca`: HFO fuel cost of the non-ECA energy, guarded by `MJn > 0`. -/
def cost_noeca (I : Inputs) (sd : ShipData) (y : ℕ) : ℚ :=
  if 0 < MJn sd then
    MJn sd * sd.voy / (I.fuelLu y .hfo).energyMJperKg * I.hfoPrices y
  else 0

/-- 6.1.3 `baseline_co2_g[(s, y)]`: baseline CO₂ mass in grams (Diesel/HFO
mix weighted by `share`), guarded by `MJv > 0`. -/
def baseline_co2_g (I : Inputs) (sd : ShipData) (y : ℕ) : ℚ :=
  if 0 < MJv sd then
    MJv sd * sd.voy *
      (share sd * (I.fuelLu y BASIC).co2gPerMJ + (1 - share sd) * (I.fuelLu y .hfo).co2gPerMJ)
  else 0

/-- 6.1.5 `ma`: maintenance cost; share-weighted Diesel/HFO rates when
`MJv > 0`, otherwise the Diesel rate alone. -/
def ma (I : Inputs) (sd : ShipData) (y : ℕ) : ℚ :=
  if 0 < MJv sd then
    sd.power *
      (share sd * (I.fuelLu y BASIC).maintUSDperKW + (1 - share sd) * (I.fuelLu y .hfo).maintUSDperKW)
  else
    sd.power * (I.fuelLu y BASIC).maintUSDperKW

/-- `baseline_cost[(s, y)] = (cost_eca + cost_noeca + co2_amt + ma) * dfac(y)`
with `co2_amt = (co2g / 1_000_000) * co2_prices[y]`. -/
def baseline_cost (I : Inputs) (sd : ShipData) (y : ℕ) : ℚ :=
  (cost_eca I sd y + cost_noeca I sd y
    + baseline_co2_g I sd y / 1000000 * I.co2Prices y + ma I sd y) * dfac y

/-- `save_pct = T_SAVE.get((s, y), 0) / 100`. -/
def save_pct (I : Inputs) (sd : ShipData) (y : ℕ) : ℚ := (I.tSave sd.name y).getD 0 / 100

/-- `MJe_r = MJe * voy * (1 - save_pct)`. -/
def MJe_r (I : Inputs) (sd : ShipData) (y : ℕ) : ℚ := MJe sd * sd.voy * (1 - save_pct I sd y)

/-- `MJn_r = MJn * voy * (1 - save_pct)`. -/
def MJn_r (I : Inputs) (sd : ShipData) (y : ℕ) : ℚ := MJn sd * sd.voy * (1 - save_pct I sd y)

/-- `cost_eca_r`: reduced Diesel cost after retrofit, guarded by `MJe_r > 0`. -/
def cost_eca_r (I : Inputs) (sd : ShipData) (y : ℕ) : ℚ :=
  if 0 < MJe_r I sd y then
    MJe_r I sd y / (I.fuelLu y BASIC).energyMJperKg * I.dieselPrices y
  else 0

/-- `cost_noeca_r`: reduced HFO cost after retrofit, guarded by `MJn_r > 0`. -/
def cost_noeca_r (I : Inputs) (sd : ShipData) (y : ℕ) : ℚ :=
  if 0 < MJn_r I sd y then
    MJn_r I sd y / (I.fuelLu y .hfo).energyMJperKg * I.hfoPrices y
  else 0

/-- `retro_co2_g[(s, y)]`: CO₂ mass after the retrofit, guarded by `MJv > 0`. -/
def retro_co2_g (I : Inputs) (sd : ShipData) (y : ℕ) : ℚ :=
  if 0 < MJv sd then
    MJe_r I sd y * (I.fuelLu y BASIC).co2gPerMJ + MJn_r I sd y * (I.fuelLu y .hfo).co2gPerMJ
  else 0

/-- The operating part of `retro_cost[(s, y)]`:
`(cost_eca_r + cost_noeca_r + co2_r + ma_r) * dfac(y)` with `ma_r = ma`. -/
def retro_cost_op (I : Inputs) (sd : ShipData) (y : ℕ) : ℚ :=
  (cost_eca_r I sd y + cost_noeca_r I sd y
    + retro_co2_g I sd y / 1000000 * I.co2Prices y + ma I sd y) * dfac y

/-- `retro_cost[(s, y)] = (...) * dfac(y) + capex_r` with
`capex_r = T_COST.get((s, y), 0) * dfac(y)`. -/
def retro_cost (I : Inputs) (sd : ShipData) (y : ℕ) : ℚ :=
  retro_cost_op I sd y + (I.tCost sd.name y).getD 0 * dfac y

/-- `MJv_n = MJv * voy * factor`. -/
def MJv_n (sd : ShipData) : ℚ := MJv sd * sd.voy * factor sd

/-- `MJn_n = MJn * voy * factor`. -/
def MJn_n (sd : ShipData) : ℚ := MJn sd * sd.voy * factor sd

/-- `cost_eca_n`: newbuild fuel cost computed from `MJv_n` (the source uses
the total scaled energy here), priced at fuel `f`'s table rate, guarded by
`MJv_n > 0`. -/
def cost_eca_n (I : Inputs) (sd : ShipData) (y : ℕ) (f : Fuel) : ℚ :=
  if 0 < MJv_n sd then
    MJv_n sd / (I.fuelLu y f).energyMJperKg * (I.fuelLu y f).priceUSDperKg
  else 0

/-- `cost_noeca_n`: newbuild fuel cost computed from `MJn_n`, priced at fuel
`f`'s table rate, guarded by `MJn_n > 0`. -/
def cost_noeca_n (I : Inputs) (sd : ShipData) (y : ℕ) (f : Fuel) : ℚ :=
  if 0 < MJn_n sd then
    MJn_n sd / (I.fuelLu y f).energyMJperKg * (I.fuelLu y f).priceUSDperKg
  else 0

/-- `new_co2_g[(s, y, f)] = (MJv_n + MJn_n) * ef_f`. -/
def new_co2_g (I : Inputs) (sd : ShipData) (y : ℕ) (f : Fuel) : ℚ :=
  (MJv_n sd + MJn_n sd) * (I.fuelLu y f).co2gPerMJ

/-- The operating part of `new_cost_op[(s, y, f)]`:
`(cost_eca_n + cost_noeca_n + co2_n + ma_n) * dfac(y)` with
`ma_n = P_new * Maintenance_USD_per_kW` of fuel `f`. -/
def new_cost_operating (I : Inputs) (sd : ShipData) (y : ℕ) (f : Fuel) : ℚ :=
  (cost_eca_n I sd y f + cost_noeca_n I sd y f
    + new_co2_g I sd y f / 1000000 * I.co2Prices y
    + sd.pNew * (I.fuelLu y f).maintUSDperKW) * dfac y

/-- `new_cost_op[(s, y, f)] = (...) * dfac(y) + capex_n` with
`capex_n = N_COST.get((s, f, y), 0) * dfac(y)`. -/
def new_cost_op (I : Inputs) (sd : ShipData) (y : ℕ) (f : Fuel) : ℚ :=
  new_cost_operating I sd y f + (I.nCost sd.name f y).getD 0 * dfac y

/-- `pv_base[s] = sum(baseline_cost[(s, y)] for y in YEARS_FULL)`. -/
def pv_base (I : Inputs) (sd : ShipData) : ℚ :=
  (YEARS_FULL.map fun y => baseline_cost I sd y).sum

/-- `delta_retro[(s, y0)] = sum(retro_cost - baseline_cost for y in YEARS_FULL if y >= y0)`. -/
def delta_retro (I : Inputs) (sd : ShipData) (y0 : ℕ) : ℚ :=
  ((YEARS_FULL.filter fun y => y0 ≤ y).map fun y =>
    retro_cost I sd y - baseline_cost I sd y).sum

/-- `delta_new[(s, y0, f)] = sum(new_cost_op - baseline_cost for y in YEARS_FULL if y >= y0)`. -/
def delta_new (I : Inputs) (sd : ShipData) (y0 : ℕ) (f : Fuel) : ℚ :=
  ((YEARS_FULL.filter fun y => y0 ≤ y).map fun y =>
    new_cost_op I sd y f - baseline_cost I sd y).sum

/-- Value of a binary decision variable: `1` when selected, else `0`. -/
def bvar (b : Bool) : ℚ := if b then 1 else 0

/-- The flat index list `[(y, f) for y in YEARS_DEC for f in OTHERS]`. -/
def decPairs : List (ℕ × Fuel) := YEARS_DEC.flatMap fun y => OTHERS.map fun f => (y, f)

/-- The flat index list `[(yy, f) for yy in YEARS_DEC if yy <= y for f in OTHERS]`
of the no-retrofit-after-newbuild constraint. -/
def decPairsUpto (y : ℕ) : List (ℕ × Fuel) :=
  (YEARS_DEC.filter fun yy => yy ≤ y).flatMap fun yy => OTHERS.map fun f => (yy, f)

/-- The per-ship constraints of the MILP: at most one retrofit, at most one
newbuild, and for every decision year `y`:
`t[(s,y)] <= 1 - lpSum(n[(s,yy,f)] for yy in YEARS_DEC if yy <= y for f in OTHERS)`. -/
def shipConstraints (t : ℕ → Bool) (n : ℕ → Fuel → Bool) : Prop :=
  (YEARS_DEC.map fun y => bvar (t y)).sum ≤ 1
  ∧ (decPairs.map fun p => bvar (n p.1 p.2)).sum ≤ 1
  ∧ ∀ y ∈ YEARS_DEC,
      bvar (t y) ≤ 1 - ((decPairsUpto y).map fun p => bvar (n p.1 p.2)).sum

/-- A feasible 0/1 assignment of the decision variables: every ship's
constraints hold. -/
def feasible (ships : List ShipData) (t : String → ℕ → Bool)
    (n : String → ℕ → Fuel → Bool) : Prop :=
  ∀ sd ∈ ships, shipConstraints (t sd.name) (n sd.name)

/-- The model objective
`lpSum(pv_base[s]) + lpSum(delta_retro[(s,y)] * t[(s,y)]) + lpSum(delta_new[(s,y,f)] * n[(s,y,f)])`. -/
def objective (I : Inputs) (ships : List ShipData) (t : String → ℕ → Bool)
    (n : String → ℕ → Fuel → Bool) : ℚ :=
  (ships.map fun sd => pv_base I sd).sum
  + (ships.map fun sd =>
      (YEARS_DEC.map fun y => delta_retro I sd y * bvar (t sd.name y)).sum).sum
  + (ships.map fun sd =>
      (decPairs.map fun p => delta_new I sd p.1 p.2 * bvar (n sd.name p.1 p.2)).sum).sum

/-- The newbuild decision (start year and fuel) governing year `y`: the first
selected pair with start year `≤ y` (unique under feasibility). -/
def chosenNew (n : ℕ → Fuel → Bool) (y : ℕ) : Option (ℕ × Fuel) :=
  (decPairsUpto y).findSome? fun p => if n p.1 p.2 then some p else none

/-- Whether a selected retrofit start year `≤ y` exists. -/
def retroActive (t : ℕ → Bool) (y : ℕ) : Bool :=
  (YEARS_DEC.filter fun y0 => y0 ≤ y).any fun y0 => t y0

/-- The cost charged for year `y` when every year of the horizon is walked
and the regime-appropriate per-year cost value is charged: newbuild from its
start year onward, otherwise retrofit from its start year onward, otherwise
baseline. -/
def walkYearCost (I : Inputs) (sd : ShipData) (t : ℕ → Bool) (n : ℕ → Fuel → Bool)
    (y : ℕ) : ℚ :=
  match chosenNew n y with
  | some p => new_cost_op I sd y p.2
  | none => if retroActive t y then retro_cost I sd y else baseline_cost I sd y

/-- Per-ship total of `walkYearCost` over the full horizon. -/
def shipWalkCost (I : Inputs) (sd : ShipData) (t : ℕ → Bool) (n : ℕ → Fuel → Bool) : ℚ :=
  (YEARS_FULL.map fun y => walkYearCost I sd t n y).sum

/-- Fleet total of `shipWalkCost`. -/
def fleetWalkCost (I : Inputs) (ships : List ShipData) (t : String → ℕ → Bool)
    (n : String → ℕ → Fuel → Bool) : ℚ :=
  (ships.map fun sd => shipWalkCost I sd (t sd.name) (n sd.name)).sum

/-- The selected retrofit start year, if any. -/
def selRetro (t : ℕ → Bool) : Option ℕ :=
  YEARS_DEC.findSome? fun y => if t y then some y else none

/-- The selected newbuild (start year, fuel), if any. -/
def selNew (n : ℕ → Fuel → Bool) : Option (ℕ × Fuel) :=
  decPairs.findSome? fun p => if n p.1 p.2 then some p else none

/-- Modelled from the spec (claim C1's wording, not from the source): the
"true discounted lifecycle cost" of one ship — walk every year of the full
horizon, charge the baseline, retrofit or newbuild annual operating cost
according to which regime is active that year (newbuild from its start year
onward, otherwise retrofit from its start year onward, otherwise baseline),
and charge each selected transition's discounted capital cost exactly once,
at its start year. -/
def trueLifecycleCost (I : Inputs) (sd : ShipData) (t : ℕ → Bool)
    (n : ℕ → Fuel → Bool) : ℚ :=
  (YEARS_FULL.map fun y =>
    match chosenNew n y with
    | some p => new_cost_operating I sd y p.2
    | none => if retroActive t y then retro_cost_op I sd y else baseline_cost I sd y).sum
  + (match selRetro t with
     | some y0 => (I.tCost sd.name y0).getD 0 * dfac y0
     | none => 0)
  + (match selNew n with
     | some p => (I.nCost sd.name p.2 p.1).getD 0 * dfac p.1
     | none => 0)

/-- Fleet total of `trueLifecycleCost` (spec-side definition for claim C1). -/
def trueFleetLifecycleCost (I : Inputs) (ships : List ShipData)
    (t : String → ℕ → Bool) (n : String → ℕ → Fuel → Bool) : ℚ :=
  (ships.map fun sd => trueLifecycleCost I sd (t sd.name) (n sd.name)).sum

/-- Modelled from the spec (claim C4's wording, not from the source): the
purely secondary-fuel (HFO) baseline annual cost — non-ECA fuel at the HFO
price, CO₂ at the HFO emission factor, maintenance at the HFO rate, and no
Diesel quantity in any term. -/
def hfoOnlyBaseline (I : Inputs) (sd : ShipData) (y : ℕ) : ℚ :=
  (MJn sd * sd.voy / (I.fuelLu y .hfo).energyMJperKg * I.hfoPrices y
    + MJv sd * sd.voy * (I.fuelLu y .hfo).co2gPerMJ / 1000000 * I.co2Prices y
    + sd.power * (I.fuelLu y .hfo).maintUSDperKW) * dfac y

/-- `LpStatusOptimal` of PuLP. -/
def LpStatusOptimal : Int := 1

/-- The two error outcomes of the post-solve section of
`run_fleet_optimization`: the explicit `RuntimeError` raised on a non-optimal
solver status (carrying that status), and Python's `ZeroDivisionError` from
the relative-savings division. -/
inductive RunError
  | notOptimal (status : Int)
  | zeroDivision
deriving DecidableEq

/-- The reporting payload: optimized NPV, baseline NPV, absolute and relative
savings (`comp_df` and `savings_df` contents). -/
structure Report where
  npvOpt : ℚ
  npvBase : ℚ
  savingsAbs : ℚ
  savingsRelPct : ℚ
deriving DecidableEq

/-- Python float division: raises `ZeroDivisionError` when the denominator is
zero, otherwise returns the quotient. -/
def pydiv (a b : ℚ) : Except RunError ℚ :=
  if b = 0 then .error .zeroDivision else .ok (a / b)

/-- The post-solve section of `run_fleet_optimization`: raise
`RuntimeError(f"Modell nicht optimal (Status {mdl.status})")` unless the
status is optimal, then build the cost comparison and the savings summary,
whose relative entry is `(obj_base - obj_opt) / obj_base * 100`. -/
def report_stage (status : Int) (objOpt objBase : ℚ) : Except RunError Report :=
  if status ≠ LpStatusOptimal then .error (.notOptimal status)
  else
    match pydiv (objBase - objOpt) objBase with
    | .error e => .error e
    | .ok rel => .ok ⟨objOpt, objBase, objBase - objOpt, rel * 100⟩

/-- The raw dictionaries, with a missing key modelled as `none`: indexing
(`fuel_lu[(y, f)]`, `co2_prices[y]`, `diesel_prices[y]`, `hfo_prices[y]`)
raises `KeyError` on a missing key, while `T_COST` / `T_SAVE` / `N_COST` are
only ever read through `.get(key, 0)`. -/
structure DictInputs where
  fuelLu : ℕ → Fuel → Option FuelQuote
  co2Prices : ℕ → Option ℚ
  dieselPrices : ℕ → Option ℚ
  hfoPrices : ℕ → Option ℚ
  tCost : String → ℕ → Option ℚ
  tSave : String → ℕ → Option ℚ
  nCost : String → Fuel → ℕ → Option ℚ

/-- Error-aware `ma`: the maintenance term with its dictionary lookups; a
missing quote propagates as `none` (a raised `KeyError`). -/
def maE (I : DictInputs) (sd : ShipData) (y : ℕ) : Option ℚ :=
  if 0 < MJv sd then do
    let qd ← I.fuelLu y BASIC
    let qh ← I.fuelLu y .hfo
    pure (sd.power * (share sd * qd.maintUSDperKW + (1 - share sd) * qh.maintUSDperKW))
  else do
    let qd ← I.fuelLu y BASIC
    pure (sd.power * qd.maintUSDperKW)

/-- Error-aware `cost_eca`: the Diesel quote and the Diesel price are looked
up only under the `MJe > 0` guard, exactly as in the source. -/
def cost_ecaE (I : DictInputs) (sd : ShipData) (y : ℕ) : Option ℚ :=
  if 0 < MJe sd then do
    let q ← I.fuelLu y BASIC
    let dp ← I.dieselPrices y
    pure (MJe sd * sd.voy / q.energyMJperKg * dp)
  else pure 0

/-- Error-aware `cost_noeca`. -/
def cost_noecaE (I : DictInputs) (sd : ShipData) (y : ℕ) : Option ℚ :=
  if 0 < MJn sd then do
    let q ← I.fuelLu y .hfo
    let hp ← I.hfoPrices y
    pure (MJn sd * sd.voy / q.energyMJperKg * hp)
  else pure 0

/-- Error-aware `baseline_co2_g`. -/
def baseline_co2_gE (I : DictInputs) (sd : ShipData) (y : ℕ) : Option ℚ :=
  if 0 < MJv sd then do
    let qd ← I.fuelLu y BASIC
    let qh ← I.fuelLu y .hfo
    pure (MJv sd * sd.voy * (share sd * qd.co2gPerMJ + (1 - share sd) * qh.co2gPerMJ))
  else pure 0

/-- Error-aware `baseline_cost[(s, y)]`: each mandatory lookup is performed
exactly where the source performs it, and a missing key (`KeyError`)
propagates as `none`; the CO₂ price is required unconditionally. -/
def baseline_costE (I : DictInputs) (sd : ShipData) (y : ℕ) : Option ℚ := do
  let costEca ← cost_ecaE I sd y
  let costNoEca ← cost_noecaE I sd y
  let co2g ← baseline_co2_gE I sd y
  let cp ← I.co2Prices y
  let maV ← maE I sd y
  pure ((costEca + costNoEca + co2g / 1000000 * cp + maV) * dfac y)

/-- `MJe_r` computed from the raw `T_SAVE` dictionary via `.get(_, 0)`. -/
def MJe_rE (I : DictInputs) (sd : ShipData) (y : ℕ) : ℚ :=
  MJe sd * sd.voy * (1 - (I.tSave sd.name y).getD 0 / 100)

/-- `MJn_r` computed from the raw `T_SAVE` dictionary via `.get(_, 0)`. -/
def MJn_rE (I : DictInputs) (sd : ShipData) (y : ℕ) : ℚ :=
  MJn sd * sd.voy * (1 - (I.tSave sd.name y).getD 0 / 100)

/-- Error-aware `cost_eca_r`. -/
def cost_eca_rE (I : DictInputs) (sd : ShipData) (y : ℕ) : Option ℚ :=
  if 0 < MJe_rE I sd y then do
    let q ← I.fuelLu y BASIC
    let dp ← I.dieselPrices y
    pure (MJe_rE I sd y / q.energyMJperKg * dp)
  else pure 0

/-- Error-aware `cost_noeca_r`. -/
def cost_noeca_rE (I : DictInputs) (sd : ShipData) (y : ℕ) : Option ℚ :=
  if 0 < MJn_rE I sd y then do
    let q ← I.fuelLu y .hfo
    let hp ← I.hfoPrices y
    pure (MJn_rE I sd y / q.energyMJperKg * hp)
  else pure 0

/-- Error-aware `retro_co2_g`. -/
def retro_co2_gE (I : DictInputs) (sd : ShipData) (y : ℕ) : Option ℚ :=
  if 0 < MJv sd then do
    let qd ← I.fuelLu y BASIC
    let qh ← I.fuelLu y .hfo
    pure (MJe_rE I sd y * qd.co2gPerMJ + MJn_rE I sd y * qh.co2gPerMJ)
  else pure 0

/-- Error-aware `retro_cost[(s, y)]`: `T_SAVE` and `T_COST` are read through
`.get(_, 0)` (never an error), all other lookups propagate a missing key. -/
def retro_costE (I : DictInputs) (sd : ShipData) (y : ℕ) : Option ℚ := do
  let costEcaR ← cost_eca_rE I sd y
  let costNoEcaR ← cost_noeca_rE I sd y
  let co2gR ← retro_co2_gE I sd y
  let cp ← I.co2Prices y
  let maV ← maE I sd y
  pure ((costEcaR + costNoEcaR + co2gR / 1000000 * cp + maV) * dfac y
    + (I.tCost sd.name y).getD 0 * dfac y)

/-- Error-aware `cost_eca_n`. -/
def cost_eca_nE (I : DictInputs) (sd : ShipData) (y : ℕ) (f : Fuel) : Option ℚ :=
  if 0 < MJv_n sd then do
    let q ← I.fuelLu y f
    pure (MJv_n sd / q.energyMJperKg * q.priceUSDperKg)
  else pure 0

/-- Error-aware `cost_noeca_n`. -/
def cost_noeca_nE (I : DictInputs) (sd : ShipData) (y : ℕ) (f : Fuel) : Option ℚ :=
  if 0 < MJn_n sd then do
    let q ← I.fuelLu y f
    pure (MJn_n sd / q.energyMJperKg * q.priceUSDperKg)
  else pure 0

/-- Error-aware `new_cost_op[(s, y, f)]`: the `(y, f)` fuel quote is required
unconditionally (the source reads `ef_f` and `ma_n` from it outside any
guard), `N_COST` is read through `.get(_, 0)`. -/
def new_cost_opE (I : DictInputs) (sd : ShipData) (y : ℕ) (f : Fuel) : Option ℚ := do
  let costEcaN ← cost_eca_nE I sd y f
  let costNoEcaN ← cost_noeca_nE I sd y f
  let qf ← I.fuelLu y f
  let cp ← I.co2Prices y
  pure ((costEcaN + costNoEcaN + (MJv_n sd + MJn_n sd) * qf.co2gPerMJ / 1000000 * cp
    + sd.pNew * qf.maintUSDperKW) * dfac y + (I.nCost sd.name f y).getD 0 * dfac y)

/-- Overriding one `(ship, year)` key of `T_COST` and `T_SAVE` with explicit
entries (used to express that a missing optional entry behaves exactly like a
present entry with the given values). -/
def setTurbo (I : DictInputs) (s : String) (y : ℕ) (c v : ℚ) : DictInputs :=
  { I with
    tCost := fun s2 y2 => if s2 = s ∧ y2 = y then some c else I.tCost s2 y2
    tSave := fun s2 y2 => if s2 = s ∧ y2 = y then some v else I.tSave s2 y2 }

/-- Overriding one `(ship, fuel, year)` key of `N_COST` with an explicit
entry. -/
def setNCost (I : DictInputs) (s : String) (f : Fuel) (y : ℕ) (c : ℚ) : DictInputs :=
  { I with
    nCost := fun s2 f2 y2 => if s2 = s ∧ f2 = f ∧ y2 = y then some c else I.nCost s2 f2 y2 }

/-- Pointwise correspondence between the two layers: every mandatory
dictionary is fully populated with the values of `J`, and the optional
tables agree. -/
def matches_ (I : DictInputs) (J : Inputs) : Prop :=
  (∀ y f, I.fuelLu y f = some (J.fuelLu y f))
  ∧ (∀ y, I.co2Prices y = some (J.co2Prices y))
  ∧ (∀ y, I.dieselPrices y = some (J.dieselPrices y))
  ∧ (∀ y, I.hfoPrices y = some (J.hfoPrices y))
  ∧ I.tCost = J.tCost ∧ I.tSave = J.tSave ∧ I.nCost = J.nCost

/-- The contribution of one ship to the model objective: its baseline NPV
plus its selected deltas (regrouping of the three global `lpSum`s by ship). -/
def shipObjective (I : Inputs) (sd : ShipData) (t : ℕ → Bool) (n : ℕ → Fuel → Bool) : ℚ :=
  pv_base I sd
  + (YEARS_DEC.map fun y => delta_retro I sd y * bvar (t y)).sum
  + (decPairs.map fun p => delta_new I sd p.1 p.2 * bvar (n p.1 p.2)).sum

instance (t : ℕ → Bool) (n : ℕ → Fuel → Bool) : Decidable (shipConstraints t n) := by
  unfold shipConstraints
  infer_instance

instance (ships : List ShipData) (t : String → ℕ → Bool) (n : String → ℕ → Fuel → Bool) :
    Decidable (feasible ships t n) := by
  unfold feasible
  infer_instance

/-- A neutral fuel quote: unit energy density, zero price/emission/maintenance. -/
def quote0 : FuelQuote := ⟨1, 0, 0, 0⟩

/-- Concrete ship: one voyage, all route energy outside the ECA. -/
def sd1 : ShipData := ⟨"A", 1, 0, some 1, 1, 0, some ⟨1, 0⟩⟩

/-- Concrete inputs: the HFO price is 1 in 2030 and 0 elsewhere, a 50%
retrofit saving is quoted for every year, no capital costs anywhere. -/
def I1 : Inputs :=
  ⟨fun _ _ => quote0, fun _ => 0, fun _ => 0, fun y => if y = 2030 then 1 else 0,
   fun _ _ => none, fun _ _ => some 50, fun _ _ _ => none⟩

/-- Decision assignment: retrofit in 2025 (for every ship name). -/
def t1 : String → ℕ → Bool := fun _ y => decide (y = 2025)

/-- Decision assignment: newbuild in 2030 with LPG (for every ship name). -/
def n1 : String → ℕ → Fuel → Bool := fun _ y f =>
  match f with
  | .lpg => decide (y = 2030)
  | _ => false

/-- Concrete ship with no voyages, no route data, no power. -/
def sd2 : ShipData := ⟨"B", 0, 0, none, 0, 0, none⟩

/-- Concrete inputs: all prices zero, but retrofit capital cost entries of 10
for ship class "B" in both 2025 and 2026. -/
def I2 : Inputs :=
  ⟨fun _ _ => quote0, fun _ => 0, fun _ => 0, fun _ => 0,
   fun s y => if s = "B" ∧ (y = 2025 ∨ y = 2026) then some 10 else none,
   fun _ _ => none, fun _ _ _ => none⟩

/-- Concrete ship: total voyage energy 10 MJ of which 4 MJ inside the ECA
(so 6 MJ outside), one voyage, unit energy intensities (scaling factor 1). -/
def sd3 : ShipData := ⟨"C", 1, 0, some 1, 1, 0, some ⟨10, 4⟩⟩

/-- Concrete inputs: LPG has unit energy density, unit price and unit
emission factor; everything else is zero. -/
def I3 : Inputs :=
  ⟨fun _ f => match f with | .lpg => ⟨1, 1, 1, 0⟩ | _ => quote0,
   fun _ => 0, fun _ => 0, fun _ => 0,
   fun _ _ => none, fun _ _ => none, fun _ _ _ => none⟩

/-- Concrete inputs: the HFO maintenance rate is 3, the Diesel maintenance
rate is 5, unit density, all prices zero except a unit HFO price. -/
def I4 : Inputs :=
  ⟨fun _ f => match f with | .hfo => ⟨1, 0, 0, 3⟩ | _ => ⟨1, 0, 0, 5⟩,
   fun _ => 0, fun _ => 0, fun _ => 1, fun _ _ => none, fun _ _ => none, fun _ _ _ => none⟩

/-- Concrete ship absent from the route data, with installed power 1. -/
def sd4 : ShipData := ⟨"D", 1, 1, none, 0, 0, none⟩

/-- Concrete ship present in the route data with ECA share 0 and positive
total energy. -/
def sd4b : ShipData := ⟨"D2", 1, 1, none, 0, 0, some ⟨2, 0⟩⟩

/-- Concrete ship: total energy 2 MJ, ECA energy 1 MJ, one voyage. -/
def sd5 : ShipData := ⟨"E", 1, 1, none, 0, 0, some ⟨2, 1⟩⟩

/-- Concrete inputs: all prices, emission factors, densities and maintenance
rates are 1; a 50% retrofit saving at zero capital cost in every year. -/
def I5 : Inputs :=
  ⟨fun _ _ => ⟨1, 1, 1, 1⟩, fun _ => 1, fun _ => 1, fun _ => 1,
   fun _ _ => none, fun _ _ => some 50, fun _ _ _ => none⟩

/-- Concrete ship whose old energy intensity is present but zero. -/
def sd9 : ShipData := ⟨"F", 0, 0, some 0, 3, 0, none⟩

/-- Fully populated dictionaries: every mandatory key present (neutral
quotes, zero prices), every optional table empty. -/
def IE0 : DictInputs :=
  ⟨fun _ _ => some quote0, fun _ => some 0, fun _ => some 0, fun _ => some 0,
   fun _ _ => none, fun _ _ => none, fun _ _ _ => none⟩

/-- `IE0` with the CO₂ price dictionary entirely missing. -/
def IEnoCo2 : DictInputs := { IE0 with co2Prices := fun _ => none }

/-- `IE0` with every Diesel fuel quote missing. -/
def IEnoDiesel : DictInputs :=
  { IE0 with fuelLu := fun _ f => if f = BASIC then none else some quote0 }

theorem opt_bind_none {α β : Type} (x : Option α) (f : α → Option β)
    (h : ∀ a, f a = none) : x >>= f = none := by
  cases x
  · rfl
  · exact h _

theorem sum_map_add {α : Type} (l : List α) (f g : α → ℚ) :
    (l.map fun x => f x + g x).sum = (l.map f).sum + (l.map g).sum := by
  induction l with
  | nil => simp
  | cons a tl ih =>
    simp only [List.map_cons, List.sum_cons, ih]
    ring

theorem sum_map_congr {α : Type} {l : List α} {f g : α → ℚ}
    (h : ∀ x ∈ l, f x = g x) : (l.map f).sum = (l.map g).sum := by
  induction l with
  | nil => rfl
  | cons a tl ih =>
    simp only [List.map_cons, List.sum_cons]
    rw [h a (by simp), ih fun x hx => h x (by simp [hx])]

theorem sum_map_filter {α : Type} (l : List α) (p : α → Bool) (f : α → ℚ) :
    ((l.filter p).map f).sum = (l.map fun x => if p x then f x else 0).sum := by
  induction l with
  | nil => rfl
  | cons a tl ih =>
    by_cases h : p a
    · rw [List.filter_cons_of_pos h]
      simp only [List.map_cons, List.sum_cons, ih, if_pos h]
    · rw [List.filter_cons_of_neg h]
      simp only [List.map_cons, List.sum_cons, ih, if_neg h, zero_add]

theorem sum_map_nonpos {α : Type} {l : List α} {f : α → ℚ}
    (h : ∀ x ∈ l, f x ≤ 0) : (l.map f).sum ≤ 0 := by
  induction l with
  | nil => simp
  | cons a tl ih =>
    simp only [List.map_cons, List.sum_cons]
    have h1 := h a (by simp)
    have h2 := ih fun x hx => h x (by simp [hx])
    linarith

theorem sum_bvar_nonneg {α : Type} (l : List α) (g : α → Bool) :
    0 ≤ (l.map fun x => bvar (g x)).sum := by
  induction l with
  | nil => simp
  | cons a tl ih =>
    simp only [List.map_cons, List.sum_cons]
    have : 0 ≤ bvar (g a) := by unfold bvar; split_ifs <;> norm_num
    linarith

theorem sum_bvar_eq_zero {α : Type} {l : List α} {g : α → Bool}
    (h : (l.map fun x => bvar (g x)).sum ≤ 0) : ∀ x ∈ l, g x = false := by
  induction l with
  | nil => simp
  | cons a tl ih =>
    simp only [List.map_cons, List.sum_cons] at h
    have htl : 0 ≤ (tl.map fun x => bvar (g x)).sum := sum_bvar_nonneg tl g
    have hha : 0 ≤ bvar (g a) := by unfold bvar; split_ifs <;> norm_num
    intro x hx
    rcases List.mem_cons.mp hx with rfl | hx2
    · cases hg : g x with
      | false => rfl
      | true =>
        exfalso
        rw [hg] at h
        have h0 : bvar true = 1 := rfl
        rw [h0] at h
        linarith
    · exact ih (by linarith) x hx2

theorem sum_bvar_unique {α : Type} {l : List α} {g : α → Bool}
    (h : (l.map fun x => bvar (g x)).sum ≤ 1) :
    ∀ x1 ∈ l, ∀ x2 ∈ l, g x1 = true → g x2 = true → x1 = x2 := by
  induction l with
  | nil => simp
  | cons a tl ih =>
    simp only [List.map_cons, List.sum_cons] at h
    intro x1 hx1 x2 hx2 hg1 hg2
    rcases List.mem_cons.mp hx1 with rfl | hx1t
    · rcases List.mem_cons.mp hx2 with rfl | hx2t
      · rfl
      · exfalso
        rw [hg1] at h
        have h0 : bvar true = 1 := rfl
        rw [h0] at h
        have : (tl.map fun x => bvar (g x)).sum ≤ 0 := by linarith
        have := sum_bvar_eq_zero this x2 hx2t
        rw [hg2] at this
        exact Bool.true_eq_false.mp this
    · rcases List.mem_cons.mp hx2 with rfl | hx2t
      · exfalso
        rw [hg2] at h
        have h0 : bvar true = 1 := rfl
        rw [h0] at h
        have : (tl.map fun x => bvar (g x)).sum ≤ 0 := by linarith
        have := sum_bvar_eq_zero this x1 hx1t
        rw [hg1] at this
        exact Bool.true_eq_false.mp this
      · have hha : 0 ≤ bvar (g a) := by unfold bvar; split_ifs <;> norm_num
        exact ih (by linarith) x1 hx1t x2 hx2t hg1 hg2

theorem sum_mul_bvar_eq_zero {α : Type} {l : List α} {g : α → Bool} (f : α → ℚ)
    (h : ∀ x ∈ l, g x = false) : (l.map fun x => f x * bvar (g x)).sum = 0 := by
  induction l with
  | nil => rfl
  | cons a tl ih =>
    simp only [List.map_cons, List.sum_cons]
    rw [h a (by simp)]
    have h0 : bvar false = 0 := rfl
    rw [h0, mul_zero, zero_add]
    exact ih fun x hx => h x (by simp [hx])

theorem sum_mul_bvar_single {α : Type} {l : List α} {g : α → Bool} (f : α → ℚ)
    (hnd : l.Nodup) {x0 : α} (hx0 : x0 ∈ l) (hg : g x0 = true)
    (huniq : ∀ x ∈ l, g x = true → x = x0) :
    (l.map fun x => f x * bvar (g x)).sum = f x0 := by
  induction l with
  | nil => simp at hx0
  | cons a tl ih =>
    simp only [List.map_cons, List.sum_cons]
    rcases List.mem_cons.mp hx0 with rfl | hx0t
    · rw [hg]
      have h0 : bvar true = 1 := rfl
      rw [h0, mul_one]
      have htl : ∀ x ∈ tl, g x = false := by
        intro x hx
        cases hgx : g x
        · rfl
        · exfalso
          have := huniq x (by simp [hx]) hgx
          subst this
          exact (List.nodup_cons.mp hnd).1 hx
      rw [sum_mul_bvar_eq_zero f htl, add_zero]
    · have hga : g a = false := by
        cases hgx : g a
        · rfl
        · exfalso
          have := huniq a (by simp) hgx
          subst this
          exact (List.nodup_cons.mp hnd).1 hx0t
      rw [hga]
      have h0 : bvar false = 0 := rfl
      rw [h0, mul_zero, zero_add]
      exact ih (List.nodup_cons.mp hnd).2 hx0t fun x hx => huniq x (by simp [hx])

theorem findSome?_ifsome_none {α : Type} {l : List α} {g : α → Bool}
    (h : ∀ x ∈ l, g x = false) :
    (l.findSome? fun x => if g x then some x else none) = none := by
  induction l with
  | nil => rfl
  | cons a tl ih =>
    rw [List.findSome?_cons]
    rw [h a (by simp)]
    simp only [Bool.false_eq_true, if_false]
    exact ih fun x hx => h x (by simp [hx])

theorem findSome?_ifsome_single {α : Type} {l : List α} {g : α → Bool} {x0 : α}
    (hx0 : x0 ∈ l) (hg : g x0 = true)
    (huniq : ∀ x ∈ l, g x = true → x = x0) :
    (l.findSome? fun x => if g x then some x else none) = some x0 := by
  induction l with
  | nil => simp at hx0
  | cons a tl ih =>
    rw [List.findSome?_cons]
    rcases List.mem_cons.mp hx0 with rfl | hx0t
    · rw [hg]
      simp
    · cases hga : g a
      · simp only [Bool.false_eq_true, if_false]
        exact ih hx0t fun x hx => huniq x (by simp [hx])
      · have := huniq a (by simp) hga
        subst this
        simp

theorem mem_decPairs {y : ℕ} {f : Fuel} :
    (y, f) ∈ decPairs ↔ y ∈ YEARS_DEC ∧ f ∈ OTHERS := by
  simp only [decPairs, List.mem_flatMap, List.mem_map, Prod.mk.injEq]
  constructor
  · rintro ⟨a, ha, b, hb, rfl, rfl⟩
    exact ⟨ha, hb⟩
  · rintro ⟨hy, hf⟩
    exact ⟨y, hy, f, hf, rfl, rfl⟩

theorem mem_decPairsUpto {y0 : ℕ} {y : ℕ} {f : Fuel} :
    (y0, f) ∈ decPairsUpto y ↔ y0 ∈ YEARS_DEC ∧ y0 ≤ y ∧ f ∈ OTHERS := by
  simp only [decPairsUpto, List.mem_flatMap, List.mem_map, List.mem_filter, Prod.mk.injEq,
    decide_eq_true_eq]
  constructor
  · rintro ⟨a, ⟨ha, hale⟩, b, hb, rfl, rfl⟩
    exact ⟨ha, hale, hb⟩
  · rintro ⟨hy, hle, hf⟩
    exact ⟨y0, ⟨hy, hle⟩, f, hf, rfl, rfl⟩

theorem decPairsUpto_subset {y : ℕ} {p : ℕ × Fuel} (hp : p ∈ decPairsUpto y) :
    p ∈ decPairs := by
  rcases p with ⟨y0, f⟩
  rcases mem_decPairsUpto.mp hp with ⟨h1, _, h3⟩
  exact mem_decPairs.mpr ⟨h1, h3⟩

theorem shipConstraints_retro_unique {t : ℕ → Bool} {n : ℕ → Fuel → Bool}
    (hc : shipConstraints t n) :
    ∀ y1 ∈ YEARS_DEC, ∀ y2 ∈ YEARS_DEC, t y1 = true → t y2 = true → y1 = y2 :=
  sum_bvar_unique hc.1

theorem shipConstraints_new_unique {t : ℕ → Bool} {n : ℕ → Fuel → Bool}
    (hc : shipConstraints t n) :
    ∀ p1 ∈ decPairs, ∀ p2 ∈ decPairs,
      n p1.1 p1.2 = true → n p2.1 p2.2 = true → p1 = p2 :=
  sum_bvar_unique hc.2.1

theorem shipConstraints_no_retro_after_new {t : ℕ → Bool} {n : ℕ → Fuel → Bool}
    (hc : shipConstraints t n) :
    ∀ y ∈ YEARS_DEC, t y = true → ∀ p ∈ decPairsUpto y, n p.1 p.2 = false := by
  intro y hy ht p hp
  have h3 := hc.2.2 y hy
  rw [ht] at h3
  have h0 : bvar true = 1 := rfl
  rw [h0] at h3
  have hS : ((decPairsUpto y).map fun p => bvar (n p.1 p.2)).sum ≤ 0 := by linarith
  exact sum_bvar_eq_zero hS p hp

theorem chosenNew_eq_none {n : ℕ → Fuel → Bool} {y : ℕ}
    (h : ∀ p ∈ decPairs, n p.1 p.2 = false) : chosenNew n y = none :=
  findSome?_ifsome_none fun p hp => h p (decPairsUpto_subset hp)

theorem chosenNew_single {n : ℕ → Fuel → Bool} {p0 : ℕ × Fuel}
    (hp0 : p0 ∈ decPairs) (hn : n p0.1 p0.2 = true)
    (huniq : ∀ p ∈ decPairs, n p.1 p.2 = true → p = p0) (y : ℕ) :
    chosenNew n y = if p0.1 ≤ y then some p0 else none := by
  by_cases hle : p0.1 ≤ y
  · rw [if_pos hle]
    apply findSome?_ifsome_single
    · rcases p0 with ⟨y0, f0⟩
      rcases mem_decPairs.mp hp0 with ⟨h1, h2⟩
      exact mem_decPairsUpto.mpr ⟨h1, hle, h2⟩
    · exact hn
    · exact fun p hp hgp => huniq p (decPairsUpto_subset hp) hgp
  · rw [if_neg hle]
    apply findSome?_ifsome_none
    intro p hp
    cases hnp : n p.1 p.2
    · rfl
    · exfalso
      have := huniq p (decPairsUpto_subset hp) hnp
      subst this
      rcases p with ⟨y0, f0⟩
      exact hle (mem_decPairsUpto.mp hp).2.1

theorem retroActive_eq_false {t : ℕ → Bool} {y : ℕ}
    (h : ∀ y0 ∈ YEARS_DEC, t y0 = false) : retroActive t y = false := by
  unfold retroActive
  rw [List.any_eq_false]
  intro x hx
  rw [h x (List.mem_of_mem_filter hx)]
  exact Bool.false_ne_true

theorem retroActive_single {t : ℕ → Bool} {y0 : ℕ}
    (hy0 : y0 ∈ YEARS_DEC) (ht : t y0 = true)
    (huniq : ∀ y1 ∈ YEARS_DEC, t y1 = true → y1 = y0) (y : ℕ) :
    retroActive t y = decide (y0 ≤ y) := by
  by_cases hle : y0 ≤ y
  · rw [decide_eq_true hle]
    unfold retroActive
    rw [List.any_eq_true]
    exact ⟨y0, List.mem_filter.mpr ⟨hy0, decide_eq_true hle⟩, ht⟩
  · rw [decide_eq_false hle]
    unfold retroActive
    rw [List.any_eq_false]
    intro x hx
    rcases List.mem_filter.mp hx with ⟨hxm, hxle⟩
    cases hxt : t x
    · exact Bool.false_ne_true
    · exfalso
      have := huniq x hxm hxt
      subst this
      exact hle (of_decide_eq_true hxle)

theorem walkYearCost_retro (I : Inputs) (sd : ShipData) {t : ℕ → Bool}
    {n : ℕ → Fuel → Bool} {y : ℕ} (hn : chosenNew n y = none)
    (hr : retroActive t y = true) : walkYearCost I sd t n y = retro_cost I sd y := by
  unfold walkYearCost
  rw [hn, hr]
  rfl

theorem walkYearCost_base (I : Inputs) (sd : ShipData) {t : ℕ → Bool}
    {n : ℕ → Fuel → Bool} {y : ℕ} (hn : chosenNew n y = none)
    (hr : retroActive t y = false) : walkYearCost I sd t n y = baseline_cost I sd y := by
  unfold walkYearCost
  rw [hn, hr]
  simp

theorem walkYearCost_new (I : Inputs) (sd : ShipData) {t : ℕ → Bool}
    {n : ℕ → Fuel → Bool} {y : ℕ} {p : ℕ × Fuel} (hn : chosenNew n y = some p) :
    walkYearCost I sd t n y = new_cost_op I sd y p.2 := by
  unfold walkYearCost
  rw [hn]

theorem shipObjective_eq_walk (I : Inputs) (sd : ShipData) (t : ℕ → Bool)
    (n : ℕ → Fuel → Bool) (hc : shipConstraints t n)
    (hone : (∀ y ∈ YEARS_DEC, t y = false) ∨ (∀ p ∈ decPairs, n p.1 p.2 = false)) :
    shipObjective I sd t n = shipWalkCost I sd t n := by
  by_cases hT : ∃ y ∈ YEARS_DEC, t y = true
  · -- a retrofit is selected, so by hone no newbuild is selected
    obtain ⟨yt, hytm, hyt⟩ := hT
    have hnall : ∀ p ∈ decPairs, n p.1 p.2 = false := by
      rcases hone with h | h
      · rw [h yt hytm] at hyt
        exact absurd hyt Bool.false_ne_true
      · exact h
    have huniq : ∀ y1 ∈ YEARS_DEC, t y1 = true → y1 = yt :=
      fun y1 h1 ht1 => shipConstraints_retro_unique hc y1 h1 yt hytm ht1 hyt
    unfold shipObjective
    rw [sum_mul_bvar_single (fun y => delta_retro I sd y) (by decide) hytm hyt huniq]
    rw [sum_mul_bvar_eq_zero _ hnall, add_zero]
    unfold shipWalkCost pv_base delta_retro
    rw [sum_map_filter, ← sum_map_add]
    apply sum_map_congr
    intro y hy
    by_cases hle : yt ≤ y
    · rw [walkYearCost_retro I sd (chosenNew_eq_none hnall)
        (by rw [retroActive_single hytm hyt huniq y]; exact decide_eq_true hle)]
      rw [if_pos (decide_eq_true hle)]
      ring
    · rw [walkYearCost_base I sd (chosenNew_eq_none hnall)
        (by rw [retroActive_single hytm hyt huniq y]; exact decide_eq_false hle)]
      have hd : ¬(decide (yt ≤ y) = true) := by simp [hle]
      rw [if_neg hd, add_zero]
  · -- no retrofit is selected
    have htall : ∀ y ∈ YEARS_DEC, t y = false := by
      intro y hy
      cases hty : t y
      · rfl
      · exact absurd ⟨y, hy, hty⟩ hT
    by_cases hN : ∃ p ∈ decPairs, n p.1 p.2 = true
    · -- a newbuild is selected
      obtain ⟨p0, hp0m, hp0⟩ := hN
      have huniq : ∀ p ∈ decPairs, n p.1 p.2 = true → p = p0 :=
        fun p h1 hn1 => shipConstraints_new_unique hc p h1 p0 hp0m hn1 hp0
      unfold shipObjective
      rw [sum_mul_bvar_single (fun p => delta_new I sd p.1 p.2) (by decide) hp0m hp0 huniq]
      rw [sum_mul_bvar_eq_zero _ fun y hy => htall y hy, add_zero]
      unfold shipWalkCost pv_base delta_new
      rw [sum_map_filter, ← sum_map_add]
      apply sum_map_congr
      intro y hy
      by_cases hle : p0.1 ≤ y
      · rw [walkYearCost_new I sd (by rw [chosenNew_single hp0m hp0 huniq y, if_pos hle])]
        rw [if_pos (decide_eq_true hle)]
        ring
      · rw [walkYearCost_base I sd (by rw [chosenNew_single hp0m hp0 huniq y, if_neg hle])
          (retroActive_eq_false htall)]
        have hd : ¬(decide (p0.1 ≤ y) = true) := by simp [hle]
        rw [if_neg hd, add_zero]
    · -- nothing is selected
      have hnall : ∀ p ∈ decPairs, n p.1 p.2 = false := by
        intro p hp
        cases hnp : n p.1 p.2
        · rfl
        · exact absurd ⟨p, hp, hnp⟩ hN
      unfold shipObjective
      rw [sum_mul_bvar_eq_zero _ fun y hy => htall y hy, add_zero]
      rw [sum_mul_bvar_eq_zero _ hnall, add_zero]
      unfold shipWalkCost pv_base
      apply sum_map_congr
      intro y hy
      rw [walkYearCost_base I sd (chosenNew_eq_none hnall) (retroActive_eq_false htall)]

theorem objective_eq_sum_shipObjective (I : Inputs) (ships : List ShipData)
    (t : String → ℕ → Bool) (n : String → ℕ → Fuel → Bool) :
    objective I ships t n
      = (ships.map fun sd => shipObjective I sd (t sd.name) (n sd.name)).sum := by
  unfold objective shipObjective
  rw [← sum_map_add, ← sum_map_add]

theorem maE_matches {IE : DictInputs} {J : Inputs} (h : matches_ IE J)
    (sd : ShipData) (y : ℕ) : maE IE sd y = some (ma J sd y) := by
  rcases h with ⟨hF, _, _, _, _, _, _⟩
  unfold maE ma
  by_cases hv : 0 < MJv sd
  · rw [if_pos hv, if_pos hv, hF y BASIC, hF y .hfo]
    rfl
  · rw [if_neg hv, if_neg hv, hF y BASIC]
    rfl

theorem cost_ecaE_matches {IE : DictInputs} {J : Inputs} (h : matches_ IE J)
    (sd : ShipData) (y : ℕ) : cost_ecaE IE sd y = some (cost_eca J sd y) := by
  rcases h with ⟨hF, _, hD, _, _, _, _⟩
  unfold cost_ecaE cost_eca
  by_cases h1 : 0 < MJe sd
  · rw [if_pos h1, if_pos h1, hF y BASIC, hD y]
    rfl
  · rw [if_neg h1, if_neg h1]
    rfl

theorem cost_noecaE_matches {IE : DictInputs} {J : Inputs} (h : matches_ IE J)
    (sd : ShipData) (y : ℕ) : cost_noecaE IE sd y = some (cost_noeca J sd y) := by
  rcases h with ⟨hF, _, _, hH, _, _, _⟩
  unfold cost_noecaE cost_noeca
  by_cases h1 : 0 < MJn sd
  · rw [if_pos h1, if_pos h1, hF y Fuel.hfo, hH y]
    rfl
  · rw [if_neg h1, if_neg h1]
    rfl

theorem baseline_co2_gE_matches {IE : DictInputs} {J : Inputs} (h : matches_ IE J)
    (sd : ShipData) (y : ℕ) : baseline_co2_gE IE sd y = some (baseline_co2_g J sd y) := by
  rcases h with ⟨hF, _, _, _, _, _, _⟩
  unfold baseline_co2_gE baseline_co2_g
  by_cases h1 : 0 < MJv sd
  · rw [if_pos h1, if_pos h1, hF y BASIC, hF y Fuel.hfo]
    rfl
  · rw [if_neg h1, if_neg h1]
    rfl

theorem baseline_costE_matches {IE : DictInputs} {J : Inputs} (h : matches_ IE J)
    (sd : ShipData) (y : ℕ) : baseline_costE IE sd y = some (baseline_cost J sd y) := by
  have hma := maE_matches h sd y
  have h1 := cost_ecaE_matches h sd y
  have h2 := cost_noecaE_matches h sd y
  have h3 := baseline_co2_gE_matches h sd y
  rcases h with ⟨_, hC, _, _, _, _, _⟩
  unfold baseline_costE baseline_cost
  rw [h1, h2, h3, hC y, hma]
  rfl

theorem MJe_rE_matches {IE : DictInputs} {J : Inputs} (h : matches_ IE J)
    (sd : ShipData) (y : ℕ) : MJe_rE IE sd y = MJe_r J sd y := by
  rcases h with ⟨_, _, _, _, _, hTS, _⟩
  unfold MJe_rE MJe_r save_pct
  rw [hTS]

theorem MJn_rE_matches {IE : DictInputs} {J : Inputs} (h : matches_ IE J)
    (sd : ShipData) (y : ℕ) : MJn_rE IE sd y = MJn_r J sd y := by
  rcases h with ⟨_, _, _, _, _, hTS, _⟩
  unfold MJn_rE MJn_r save_pct
  rw [hTS]

theorem cost_eca_rE_matches {IE : DictInputs} {J : Inputs} (h : matches_ IE J)
    (sd : ShipData) (y : ℕ) : cost_eca_rE IE sd y = some (cost_eca_r J sd y) := by
  have hm := MJe_rE_matches h sd y
  rcases h with ⟨hF, _, hD, _, _, _, _⟩
  unfold cost_eca_rE cost_eca_r
  rw [hm]
  by_cases h1 : 0 < MJe_r J sd y
  · rw [if_pos h1, if_pos h1, hF y BASIC, hD y]
    rfl
  · rw [if_neg h1, if_neg h1]
    rfl

theorem cost_noeca_rE_matches {IE : DictInputs} {J : Inputs} (h : matches_ IE J)
    (sd : ShipData) (y : ℕ) : cost_noeca_rE IE sd y = some (cost_noeca_r J sd y) := by
  have hm := MJn_rE_matches h sd y
  rcases h with ⟨hF, _, _, hH, _, _, _⟩
  unfold cost_noeca_rE cost_noeca_r
  rw [hm]
  by_cases h1 : 0 < MJn_r J sd y
  · rw [if_pos h1, if_pos h1, hF y Fuel.hfo, hH y]
    rfl
  · rw [if_neg h1, if_neg h1]
    rfl

theorem retro_co2_gE_matches {IE : DictInputs} {J : Inputs} (h : matches_ IE J)
    (sd : ShipData) (y : ℕ) : retro_co2_gE IE sd y = some (retro_co2_g J sd y) := by
  have hme := MJe_rE_matches h sd y
  have hmn := MJn_rE_matches h sd y
  rcases h with ⟨hF, _, _, _, _, _, _⟩
  unfold retro_co2_gE retro_co2_g
  rw [hme, hmn]
  by_cases h1 : 0 < MJv sd
  · rw [if_pos h1, if_pos h1, hF y BASIC, hF y Fuel.hfo]
    rfl
  · rw [if_neg h1, if_neg h1]
    rfl

theorem retro_costE_matches {IE : DictInputs} {J : Inputs} (h : matches_ IE J)
    (sd : ShipData) (y : ℕ) : retro_costE IE sd y = some (retro_cost J sd y) := by
  have hma := maE_matches h sd y
  have h1 := cost_eca_rE_matches h sd y
  have h2 := cost_noeca_rE_matches h sd y
  have h3 := retro_co2_gE_matches h sd y
  rcases h with ⟨_, hC, _, _, hTC, _, _⟩
  unfold retro_costE retro_cost retro_cost_op
  rw [h1, h2, h3, hC y, hma, hTC]
  rfl

theorem cost_eca_nE_matches {IE : DictInputs} {J : Inputs} (h : matches_ IE J)
    (sd : ShipData) (y : ℕ) (f : Fuel) :
    cost_eca_nE IE sd y f = some (cost_eca_n J sd y f) := by
  rcases h with ⟨hF, _, _, _, _, _, _⟩
  unfold cost_eca_nE cost_eca_n
  by_cases h1 : 0 < MJv_n sd
  · rw [if_pos h1, if_pos h1, hF y f]
    rfl
  · rw [if_neg h1, if_neg h1]
    rfl

theorem cost_noeca_nE_matches {IE : DictInputs} {J : Inputs} (h : matches_ IE J)
    (sd : ShipData) (y : ℕ) (f : Fuel) :
    cost_noeca_nE IE sd y f = some (cost_noeca_n J sd y f) := by
  rcases h with ⟨hF, _, _, _, _, _, _⟩
  unfold cost_noeca_nE cost_noeca_n
  by_cases h1 : 0 < MJn_n sd
  · rw [if_pos h1, if_pos h1, hF y f]
    rfl
  · rw [if_neg h1, if_neg h1]
    rfl

theorem new_cost_opE_matches {IE : DictInputs} {J : Inputs} (h : matches_ IE J)
    (sd : ShipData) (y : ℕ) (f : Fuel) :
    new_cost_opE IE sd y f = some (new_cost_op J sd y f) := by
  have h1 := cost_eca_nE_matches h sd y f
  have h2 := cost_noeca_nE_matches h sd y f
  rcases h with ⟨hF, hC, _, _, _, _, hNC⟩
  unfold new_cost_opE new_cost_op new_cost_operating new_co2_g
  rw [h1, h2, hF y f, hC y, hNC]
  rfl

theorem dfac_nonneg (y : ℕ) : 0 ≤ dfac y := by
  unfold dfac discount
  positivity

theorem MJv_eq_add (sd : ShipData) : MJv sd = MJe sd + MJn sd := by
  unfold MJn
  ring

theorem retro_cost_le_baseline (I : Inputs) (sd : ShipData) (y : ℕ)
    (hvoy : 0 ≤ sd.voy) (hE : 0 ≤ MJe sd) (hN : 0 ≤ MJn sd)
    (hdp : 0 ≤ I.dieselPrices y) (hhp : 0 ≤ I.hfoPrices y) (hcp : 0 ≤ I.co2Prices y)
    (hed : 0 < (I.fuelLu y BASIC).energyMJperKg)
    (heh : 0 < (I.fuelLu y Fuel.hfo).energyMJperKg)
    (hcd : 0 ≤ (I.fuelLu y BASIC).co2gPerMJ) (hch : 0 ≤ (I.fuelLu y Fuel.hfo).co2gPerMJ)
    (hsave : 0 ≤ (I.tSave sd.name y).getD 0) (hcost : (I.tCost sd.name y).getD 0 = 0) :
    retro_cost I sd y ≤ baseline_cost I sd y := by
  have hsp : 0 ≤ save_pct I sd y := by
    unfold save_pct
    positivity
  have hA : cost_eca_r I sd y ≤ cost_eca I sd y := by
    unfold cost_eca_r cost_eca
    by_cases h1 : 0 < MJe_r I sd y
    · have h1e : 0 < MJe sd * sd.voy * (1 - save_pct I sd y) := h1
      have h0 : 0 ≤ MJe sd * sd.voy := mul_nonneg hE hvoy
      have hMJev : 0 < MJe sd * sd.voy := by
        rcases h0.lt_or_eq with hlt | heq
        · exact hlt
        · exfalso
          rw [← heq, zero_mul] at h1e
          exact lt_irrefl 0 h1e
      have hMJe : 0 < MJe sd := by
        by_contra hcon
        push_neg at hcon
        nlinarith
      rw [if_pos hMJe, if_pos h1]
      have hkey : MJe_r I sd y ≤ MJe sd * sd.voy := by
        unfold MJe_r
        nlinarith
      gcongr
    · rw [if_neg h1]
      split_ifs with h2
      · exact mul_nonneg (div_nonneg (mul_nonneg hE hvoy) hed.le) hdp
      · exact le_refl 0
  have hB : cost_noeca_r I sd y ≤ cost_noeca I sd y := by
    unfold cost_noeca_r cost_noeca
    by_cases h1 : 0 < MJn_r I sd y
    · have h1e : 0 < MJn sd * sd.voy * (1 - save_pct I sd y) := h1
      have h0 : 0 ≤ MJn sd * sd.voy := mul_nonneg hN hvoy
      have hMJnv : 0 < MJn sd * sd.voy := by
        rcases h0.lt_or_eq with hlt | heq
        · exact hlt
        · exfalso
          rw [← heq, zero_mul] at h1e
          exact lt_irrefl 0 h1e
      have hMJn : 0 < MJn sd := by
        by_contra hcon
        push_neg at hcon
        nlinarith
      rw [if_pos hMJn, if_pos h1]
      have hkey : MJn_r I sd y ≤ MJn sd * sd.voy := by
        unfold MJn_r
        nlinarith
      gcongr
    · rw [if_neg h1]
      split_ifs with h2
      · exact mul_nonneg (div_nonneg (mul_nonneg hN hvoy) heh.le) hhp
      · exact le_refl 0
  have hCO : retro_co2_g I sd y ≤ baseline_co2_g I sd y := by
    unfold retro_co2_g baseline_co2_g
    by_cases h3 : 0 < MJv sd
    · rw [if_pos h3, if_pos h3]
      have hsh : share sd = MJe sd / MJv sd := if_pos h3
      have hrhs : MJv sd * sd.voy *
          (share sd * (I.fuelLu y BASIC).co2gPerMJ
            + (1 - share sd) * (I.fuelLu y Fuel.hfo).co2gPerMJ)
          = sd.voy * (MJe sd * (I.fuelLu y BASIC).co2gPerMJ
            + MJn sd * (I.fuelLu y Fuel.hfo).co2gPerMJ) := by
        rw [hsh]
        unfold MJn
        have hv0 : MJv sd ≠ 0 := ne_of_gt h3
        field_simp
        ring
      rw [hrhs]
      unfold MJe_r MJn_r
      have hbase : 0 ≤ MJe sd * (I.fuelLu y BASIC).co2gPerMJ
          + MJn sd * (I.fuelLu y Fuel.hfo).co2gPerMJ := by
        have := mul_nonneg hE hcd
        have := mul_nonneg hN hch
        linarith
      nlinarith [mul_nonneg hvoy hbase, mul_nonneg hsp (mul_nonneg hvoy hbase)]
    · rw [if_neg h3, if_neg h3]
  unfold retro_cost baseline_cost retro_cost_op
  rw [hcost, zero_mul, add_zero]
  have hsum : cost_eca_r I sd y + cost_noeca_r I sd y
      + retro_co2_g I sd y / 1000000 * I.co2Prices y + ma I sd y
      ≤ cost_eca I sd y + cost_noeca I sd y
      + baseline_co2_g I sd y / 1000000 * I.co2Prices y + ma I sd y := by
    have hco2m : retro_co2_g I sd y / 1000000 * I.co2Prices y
        ≤ baseline_co2_g I sd y / 1000000 * I.co2Prices y := by
      gcongr
    linarith
  exact mul_le_mul_of_nonneg_right hsum (dfac_nonneg y)

theorem maE_none_diesel {I : DictInputs} {sd : ShipData} {y : ℕ}
    (h : I.fuelLu y BASIC = none) : maE I sd y = none := by
  unfold maE
  by_cases hv : 0 < MJv sd
  · rw [if_pos hv, h]
    rfl
  · rw [if_neg hv, h]
    rfl

theorem baselineE_none_co2 {I : DictInputs} {sd : ShipData} {y : ℕ}
    (h : I.co2Prices y = none) : baseline_costE I sd y = none := by
  unfold baseline_costE
  apply opt_bind_none
  intro a
  apply opt_bind_none
  intro b
  apply opt_bind_none
  intro c
  rw [h]
  rfl

theorem retroE_none_co2 {I : DictInputs} {sd : ShipData} {y : ℕ}
    (h : I.co2Prices y = none) : retro_costE I sd y = none := by
  unfold retro_costE
  apply opt_bind_none
  intro a
  apply opt_bind_none
  intro b
  apply opt_bind_none
  intro c
  rw [h]
  rfl

theorem newE_none_co2 {I : DictInputs} {sd : ShipData} {y : ℕ} (f : Fuel)
    (h : I.co2Prices y = none) : new_cost_opE I sd y f = none := by
  unfold new_cost_opE
  apply opt_bind_none
  intro a
  apply opt_bind_none
  intro b
  apply opt_bind_none
  intro qf
  rw [h]
  rfl

theorem baselineE_none_diesel {I : DictInputs} {sd : ShipData} {y : ℕ}
    (h : I.fuelLu y BASIC = none) : baseline_costE I sd y = none := by
  unfold baseline_costE
  apply opt_bind_none
  intro a
  apply opt_bind_none
  intro b
  apply opt_bind_none
  intro c
  apply opt_bind_none
  intro cp
  rw [maE_none_diesel h]
  rfl

theorem retroE_none_diesel {I : DictInputs} {sd : ShipData} {y : ℕ}
    (h : I.fuelLu y BASIC = none) : retro_costE I sd y = none := by
  unfold retro_costE
  apply opt_bind_none
  intro a
  apply opt_bind_none
  intro b
  apply opt_bind_none
  intro c
  apply opt_bind_none
  intro cp
  rw [maE_none_diesel h]
  rfl

theorem newE_none_quote {I : DictInputs} {sd : ShipData} {y : ℕ} {f : Fuel}
    (h : I.fuelLu y f = none) : new_cost_opE I sd y f = none := by
  unfold new_cost_opE
  apply opt_bind_none
  intro a
  apply opt_bind_none
  intro b
  rw [h]
  rfl

theorem cost_ecaE_none_dprice {I : DictInputs} {sd : ShipData} {y : ℕ}
    (h : I.dieselPrices y = none) (hM : 0 < MJe sd) : cost_ecaE I sd y = none := by
  unfold cost_ecaE
  rw [if_pos hM]
  apply opt_bind_none
  intro q
  rw [h]
  rfl

theorem baselineE_none_dprice {I : DictInputs} {sd : ShipData} {y : ℕ}
    (h : I.dieselPrices y = none) (hM : 0 < MJe sd) : baseline_costE I sd y = none := by
  unfold baseline_costE
  rw [cost_ecaE_none_dprice h hM]
  rfl

theorem cost_noecaE_none_hprice {I : DictInputs} {sd : ShipData} {y : ℕ}
    (h : I.hfoPrices y = none) (hM : 0 < MJn sd) : cost_noecaE I sd y = none := by
  unfold cost_noecaE
  rw [if_pos hM]
  apply opt_bind_none
  intro q
  rw [h]
  rfl

theorem baselineE_none_hprice {I : DictInputs} {sd : ShipData} {y : ℕ}
    (h : I.hfoPrices y = none) (hM : 0 < MJn sd) : baseline_costE I sd y = none := by
  unfold baseline_costE
  apply opt_bind_none
  intro a
  rw [cost_noecaE_none_hprice h hM]
  rfl

theorem maE_setTurbo (I : DictInputs) (sd : ShipData) (y : ℕ) (s : String)
    (yy : ℕ) (c v : ℚ) : maE (setTurbo I s yy c v) sd y = maE I sd y := rfl

theorem retroE_default {I : DictInputs} {sd : ShipData} {y : ℕ}
    (hc : I.tCost sd.name y = none) (hs : I.tSave sd.name y = none) :
    retro_costE I sd y = retro_costE (setTurbo I sd.name y 0 0) sd y := by
  unfold retro_costE cost_eca_rE cost_noeca_rE retro_co2_gE MJe_rE MJn_rE
  rw [maE_setTurbo]
  unfold setTurbo
  simp [hc, hs]

theorem newE_default {I : DictInputs} {sd : ShipData} {y : ℕ} {f : Fuel}
    (h : I.nCost sd.name f y = none) :
    new_cost_opE I sd y f = new_cost_opE (setNCost I sd.name f y 0) sd y f := by
  unfold new_cost_opE cost_eca_nE cost_noeca_nE setNCost
  simp [h]

/-- C1, counterexample: the claim "for every feasible assignment the model
objective equals the true discounted lifecycle cost (regime walk, each
selected transition's capital cost charged exactly once)" is false.  With
ship `sd1` (HFO price 1 only in 2030, a free 50% saving quoted in every year,
no capital costs anywhere), the assignment retrofit-2025 plus newbuild-2030
is feasible, yet the objective also charges the retrofit delta for the years
2030-2050 in which the newbuild regime is active, so it differs from the true
lifecycle cost of the walked path. -/
theorem C1_counterexample :
    feasible [sd1] t1 n1
    ∧ objective I1 [sd1] t1 n1 ≠ trueFleetLifecycleCost I1 [sd1] t1 n1 := by
  constructor
  · norm_num [feasible, shipConstraints, YEARS_DEC, decPairs, decPairsUpto, OTHERS, t1, n1,
      sd1, bvar, List.filter]
  · have h1 : objective I1 [sd1] t1 n1 = -(1/2) * (100/107)^5 := by
      norm_num [objective, pv_base, delta_retro, delta_new, YEARS_FULL, YEARS_DEC, decPairs,
        OTHERS, retro_cost, retro_cost_op, cost_eca_r, cost_noeca_r, retro_co2_g, MJe_r, MJn_r,
        save_pct, new_cost_op, new_cost_operating, cost_eca_n, cost_noeca_n, new_co2_g, MJv_n,
        MJn_n, factor, baseline_cost, cost_eca, cost_noeca, baseline_co2_g, ma, t1, n1, bvar,
        I1, sd1, MJe, MJn, MJv, share, dfac, discount, quote0, BASIC, List.filter]
    have h2 : trueFleetLifecycleCost I1 [sd1] t1 n1 = 0 := by
      norm_num [trueFleetLifecycleCost, trueLifecycleCost, chosenNew, retroActive, selRetro,
        selNew, YEARS_FULL, YEARS_DEC, decPairs, decPairsUpto, OTHERS, retro_cost_op,
        cost_eca_r, cost_noeca_r, retro_co2_g, MJe_r, MJn_r, save_pct, new_cost_operating,
        cost_eca_n, cost_noeca_n, new_co2_g, MJv_n, MJn_n, factor, baseline_cost, cost_eca,
        cost_noeca, baseline_co2_g, ma, t1, n1, I1, sd1, MJe, MJn, MJv, share, dfac, discount,
        quote0, BASIC, List.filter, List.findSome?]
    rw [h1, h2]
    norm_num

/-- C1 (amended): for every feasible assignment in which no ship has BOTH a
retrofit and a newbuild selected, the model objective
`Σ pv_base + Σ delta_retro·t + Σ delta_new·n` equals the cost obtained by
walking every year of the full horizon and charging the per-year baseline,
retrofit, or newbuild cost value as computed (newbuild from its start year
onward, otherwise retrofit from its start year onward, otherwise baseline).
The per-year retrofit and newbuild values include the year's own
capital-cost table entry, so a selected transition's capital cost is charged
once per horizon year at/after the start with a table entry — exactly once
only when the start year alone carries an entry (see C2). -/
theorem C1_amended_objective_eq_walk (I : Inputs) (ships : List ShipData)
    (t : String → ℕ → Bool) (n : String → ℕ → Fuel → Bool)
    (hf : feasible ships t n)
    (hone : ∀ sd ∈ ships, (∀ y ∈ YEARS_DEC, t sd.name y = false)
        ∨ (∀ p ∈ decPairs, n sd.name p.1 p.2 = false)) :
    objective I ships t n = fleetWalkCost I ships t n := by
  rw [objective_eq_sum_shipObjective]
  unfold fleetWalkCost
  exact sum_map_congr fun sd hsd => shipObjective_eq_walk I sd _ _ (hf sd hsd) (hone sd hsd)

/-- C1, witness: the amended theorem applied to the concrete instance
(`I1`, ship `sd1`) with the all-zero decision assignment. -/
theorem C1_amended_witness :
    objective I1 [sd1] (fun _ _ => false) (fun _ _ _ => false)
      = fleetWalkCost I1 [sd1] (fun _ _ => false) (fun _ _ _ => false) :=
  C1_amended_objective_eq_walk I1 [sd1] _ _
    (by norm_num [feasible, shipConstraints, YEARS_DEC, decPairs, decPairsUpto, OTHERS,
      bvar, List.filter])
    (fun sd _ => Or.inl fun y _ => rfl)

/-- C2, counterexample: the claim "delta_retro[s, y0] contains the discounted
one-time retrofit capital cost exactly once, namely T_COST(s, y0)·dfac(y0),
and no capital cost from any year after y0" is false.  With `I2` (retrofit
capital cost 10 quoted for ship class "B" in both 2025 and 2026, all other
data zero), `delta_retro` at y0 = 2025 is `10 + 10·(100/107)` — it also
contains 2026's discounted capital cost — while the claimed decomposition
gives 10. -/
theorem C2_counterexample :
    delta_retro I2 sd2 2025
      ≠ ((YEARS_FULL.filter fun y => 2025 ≤ y).map fun y =>
          retro_cost_op I2 sd2 y - baseline_cost I2 sd2 y).sum
        + (I2.tCost sd2.name 2025).getD 0 * dfac 2025 := by
  have h1 : delta_retro I2 sd2 2025 = 10 + 10 * (100/107) := by
    norm_num [delta_retro, YEARS_FULL, retro_cost, retro_cost_op, cost_eca_r, cost_noeca_r,
      retro_co2_g, MJe_r, MJn_r, save_pct, ma, baseline_cost, cost_eca, cost_noeca,
      baseline_co2_g, I2, sd2, MJe, MJn, MJv, share, dfac, discount, quote0, BASIC, List.filter]
  have h2 : ((YEARS_FULL.filter fun y => 2025 ≤ y).map fun y =>
        retro_cost_op I2 sd2 y - baseline_cost I2 sd2 y).sum
      + (I2.tCost sd2.name 2025).getD 0 * dfac 2025 = 10 := by
    norm_num [YEARS_FULL, retro_cost_op, cost_eca_r, cost_noeca_r, retro_co2_g, MJe_r, MJn_r,
      save_pct, ma, baseline_cost, cost_eca, cost_noeca, baseline_co2_g, I2, sd2, MJe, MJn,
      MJv, share, dfac, discount, quote0, BASIC, List.filter]
  rw [h1, h2]
  norm_num

/-- C2 (amended): for every ship and start year y0, `delta_retro[s, y0]`
decomposes into the aggregated operating difference plus the SUM of the
discounted capital-cost entries `T_COST(s, y)·dfac(y)` over ALL horizon years
y ≥ y0 — i.e. the table capex of every year at/after y0 is charged, not only
the start year's; and analogously `delta_new[s, y0, f]` charges
`N_COST(s, f, y)·dfac(y)` for every y ≥ y0 with an entry. -/
theorem C2_amended_delta_decomposition (I : Inputs) (sd : ShipData) (y0 : ℕ) :
    (delta_retro I sd y0
      = ((YEARS_FULL.filter fun y => y0 ≤ y).map fun y =>
          retro_cost_op I sd y - baseline_cost I sd y).sum
        + ((YEARS_FULL.filter fun y => y0 ≤ y).map fun y =>
            (I.tCost sd.name y).getD 0 * dfac y).sum)
    ∧ ∀ f : Fuel, delta_new I sd y0 f
      = ((YEARS_FULL.filter fun y => y0 ≤ y).map fun y =>
          new_cost_operating I sd y f - baseline_cost I sd y).sum
        + ((YEARS_FULL.filter fun y => y0 ≤ y).map fun y =>
            (I.nCost sd.name f y).getD 0 * dfac y).sum := by
  constructor
  · unfold delta_retro retro_cost
    rw [← sum_map_add]
    exact sum_map_congr fun y hy => by ring
  · intro f
    unfold delta_new new_cost_op
    rw [← sum_map_add]
    exact sum_map_congr fun y hy => by ring

/-- C3: the newbuild cost block double-prices the non-ECA energy.  For ship
`sd3` (total scaled energy 10 MJ, of which 6 MJ non-ECA; unit LPG density,
price and emission factor, all other prices zero) the fuel term charges
`MJv_n + MJn_n = 10 + 6 = 16` energy units — total PLUS non-ECA again —
instead of the total 10 priced once, and the CO₂ mass is likewise 16 g
instead of 10 g.  This theorem evaluates the code at the failing input. -/
theorem C3_double_counting_eval :
    MJv_n sd3 = 10 ∧ MJn_n sd3 = 6
    ∧ new_cost_op I3 sd3 2025 Fuel.lpg = 16
    ∧ new_co2_g I3 sd3 2025 Fuel.lpg = 16 := by
  refine ⟨?_, ?_, ?_, ?_⟩ <;>
    norm_num [new_cost_op, new_cost_operating, cost_eca_n, cost_noeca_n, new_co2_g, MJv_n,
      MJn_n, factor, I3, sd3, MJe, MJn, MJv, dfac, discount, quote0]

/-- C4, counterexample: the claim "every ship with ECA share 0 — including
every ship absent from the route data — has a purely secondary-fuel (HFO)
baseline cost" is false.  Ship `sd4` is absent from the route data (share 0),
but with a Diesel maintenance rate of 5 and an HFO maintenance rate of 3 its
baseline cost is 5 (Diesel maintenance), not the HFO-only value 3: the
`MJv > 0` guard of the maintenance term falls back to the DIESEL rate. -/
theorem C4_counterexample :
    share sd4 = 0 ∧ baseline_cost I4 sd4 2025 ≠ hfoOnlyBaseline I4 sd4 2025 := by
  constructor
  · norm_num [share, MJv, MJe, sd4]
  · have h1 : baseline_cost I4 sd4 2025 = 5 := by
      norm_num [baseline_cost, cost_eca, cost_noeca, baseline_co2_g, ma, I4, sd4, MJe, MJn,
        MJv, share, dfac, discount, BASIC]
    have h2 : hfoOnlyBaseline I4 sd4 2025 = 3 := by
      norm_num [hfoOnlyBaseline, I4, sd4, MJe, MJn, MJv, dfac, discount]
    rw [h1, h2]
    norm_num

/-- C4 (amended): for every ship with ECA share 0: if the total route energy
is positive, the baseline annual cost equals the purely secondary-fuel (HFO)
value — non-ECA fuel at the HFO price, CO₂ at the HFO emission factor,
maintenance at the HFO rate, no Diesel quantity in any term; but if the ship
has no route energy at all (in particular a ship absent from the route data),
the fuel and CO₂ terms are zero and maintenance is charged at the DIESEL
rate, so the baseline cost is `power · Diesel-maintenance · dfac(y)`. -/
theorem C4_amended_share_zero (I : Inputs) (sd : ShipData) (y : ℕ)
    (hsh : share sd = 0) :
    (0 < MJv sd → baseline_cost I sd y = hfoOnlyBaseline I sd y)
    ∧ (MJv sd = 0 ∧ MJe sd = 0 →
        baseline_cost I sd y = sd.power * (I.fuelLu y BASIC).maintUSDperKW * dfac y) := by
  constructor
  · intro hv
    have hME : MJe sd = 0 := by
      have h2 := hsh
      unfold share at h2
      rw [if_pos hv] at h2
      rcases div_eq_zero_iff.mp h2 with h | h
      · exact h
      · exact absurd h (ne_of_gt hv)
    have hMN : MJn sd = MJv sd := by
      unfold MJn
      rw [hME]
      ring
    unfold baseline_cost hfoOnlyBaseline cost_eca cost_noeca baseline_co2_g ma
    rw [hME, hMN, hsh]
    norm_num [hv]
  · rintro ⟨hv0, he0⟩
    have hMN : MJn sd = 0 := by
      unfold MJn
      rw [hv0, he0]
      ring
    unfold baseline_cost cost_eca cost_noeca baseline_co2_g ma
    rw [hv0, he0, hMN]
    norm_num

/-- C4, witness: the amended theorem applied to `sd4b` (route present, ECA
share 0, positive energy — HFO-only case) and to `sd4` (absent from route
data — Diesel-maintenance case), both under the concrete inputs `I4`. -/
theorem C4_amended_witness :
    baseline_cost I4 sd4b 2025 = hfoOnlyBaseline I4 sd4b 2025
    ∧ baseline_cost I4 sd4 2025
      = sd4.power * (I4.fuelLu 2025 BASIC).maintUSDperKW * dfac 2025 := by
  constructor
  · exact (C4_amended_share_zero I4 sd4b 2025
      (by norm_num [share, MJv, MJe, sd4b])).1 (by norm_num [MJv, sd4b])
  · exact (C4_amended_share_zero I4 sd4 2025
      (by norm_num [share, MJv, MJe, sd4])).2
      ⟨by norm_num [MJv, sd4], by norm_num [MJe, sd4]⟩

/-- C5: for every ship and start year y0, if for every horizon year y ≥ y0
the retrofit saving percentage is strictly positive and the retrofit capital
cost is 0, and all fuel prices, the CO₂ price and both emission factors are
non-negative with positive energy densities, then `delta_retro[s, y0] ≤ 0`:
a free, lossless saving can never make a ship worse off.  (The ship's voyage
count and route energies are non-negative, per the data-model invariants.) -/
theorem C5_free_saving_nonpositive (I : Inputs) (sd : ShipData) (y0 : ℕ)
    (hvoy : 0 ≤ sd.voy) (hE : 0 ≤ MJe sd) (hN : 0 ≤ MJn sd)
    (hq : ∀ y ∈ YEARS_FULL, 0 ≤ I.dieselPrices y ∧ 0 ≤ I.hfoPrices y ∧ 0 ≤ I.co2Prices y
      ∧ 0 < (I.fuelLu y BASIC).energyMJperKg ∧ 0 < (I.fuelLu y Fuel.hfo).energyMJperKg
      ∧ 0 ≤ (I.fuelLu y BASIC).co2gPerMJ ∧ 0 ≤ (I.fuelLu y Fuel.hfo).co2gPerMJ)
    (hfree : ∀ y ∈ YEARS_FULL, y0 ≤ y →
      0 < (I.tSave sd.name y).getD 0 ∧ (I.tCost sd.name y).getD 0 = 0) :
    delta_retro I sd y0 ≤ 0 := by
  unfold delta_retro
  apply sum_map_nonpos
  intro y hy
  have hmem : y ∈ YEARS_FULL := List.mem_of_mem_filter hy
  have hle : y0 ≤ y := of_decide_eq_true (List.mem_filter.mp hy).2
  obtain ⟨hq1, hq2, hq3, hq4, hq5, hq6, hq7⟩ := hq y hmem
  obtain ⟨hs, hc⟩ := hfree y hmem hle
  have h := retro_cost_le_baseline I sd y hvoy hE hN hq1 hq2 hq3 hq4 hq5 hq6 hq7 hs.le hc
  linarith

/-- C5, witness: the theorem applied to ship `sd5` under inputs `I5` (all
prices, densities, factors 1; a 50% saving at zero capital cost every year). -/
theorem C5_witness : delta_retro I5 sd5 2025 ≤ 0 :=
  C5_free_saving_nonpositive I5 sd5 2025
    (by norm_num [sd5]) (by norm_num [MJe, sd5]) (by norm_num [MJn, MJe, MJv, sd5])
    (by intro y hy; norm_num [I5, BASIC])
    (by intro y hy hle; norm_num [I5, sd5])

/-- C6: every feasible solution of the decision model satisfies, for every
ship: at most one retrofit variable is 1, at most one newbuild variable is 1
across all years and fuels, and a selected retrofit at decision year y forces
every newbuild variable with start year ≤ y (any fuel) to 0 — a ship already
replaced cannot also retrofit. -/
theorem C6_mutual_exclusivity (ships : List ShipData) (t : String → ℕ → Bool)
    (n : String → ℕ → Fuel → Bool) (hf : feasible ships t n) :
    ∀ sd ∈ ships,
      (∀ y1 ∈ YEARS_DEC, ∀ y2 ∈ YEARS_DEC,
        t sd.name y1 = true → t sd.name y2 = true → y1 = y2)
      ∧ (∀ p1 ∈ decPairs, ∀ p2 ∈ decPairs,
          n sd.name p1.1 p1.2 = true → n sd.name p2.1 p2.2 = true → p1 = p2)
      ∧ (∀ y ∈ YEARS_DEC, t sd.name y = true →
          ∀ p ∈ decPairsUpto y, n sd.name p.1 p.2 = false) := by
  intro sd hsd
  have hc := hf sd hsd
  exact ⟨shipConstraints_retro_unique hc, shipConstraints_new_unique hc,
    shipConstraints_no_retro_after_new hc⟩

/-- C6, witness: for the feasible assignment retrofit-2025 (t1) plus
newbuild-2030-LPG (n1) on ship `sd5`, the no-retrofit-after-newbuild
consequence instantiated at year 2025 forbids a newbuild at (2025, LPG). -/
theorem C6_witness :
    t1 sd5.name 2025 = true ∧ n1 sd5.name 2025 Fuel.lpg = false := by
  constructor
  · rfl
  · exact (C6_mutual_exclusivity [sd5] t1 n1
      (by norm_num [feasible, shipConstraints, YEARS_DEC, decPairs, decPairsUpto, OTHERS,
        t1, n1, sd5, bvar, List.filter])
      sd5 (by simp)).2.2 2025 (by decide) rfl (2025, Fuel.lpg) (by decide)

theorem sum_map_zero {α : Type} (l : List α) : (l.map fun _ => (0 : ℚ)).sum = 0 := by
  induction l with
  | nil => rfl
  | cons a tl ih => simp [ih]

/-- C7: if the solver does not report an optimal status, the reporting stage
fails with the error carrying the reported solver status and produces no
report payload; moreover the all-zero decision assignment (no retrofit, no
newbuild for any ship) satisfies every constraint of the model, so the model
is feasible for every input. -/
theorem C7_solver_failure_and_feasibility (status : Int)
    (hst : status ≠ LpStatusOptimal) (objOpt objBase : ℚ) (ships : List ShipData) :
    report_stage status objOpt objBase = Except.error (RunError.notOptimal status)
    ∧ feasible ships (fun _ _ => false) (fun _ _ _ => false) := by
  constructor
  · unfold report_stage
    rw [if_pos hst]
  · refine fun sd _ => ⟨?_, ?_, fun y hy => ?_⟩
    · norm_num [YEARS_DEC, bvar]
    · norm_num [decPairs, YEARS_DEC, OTHERS, bvar]
    · simp [bvar, sum_map_zero]

/-- C7, witness: the theorem applied at solver status 0 (not solved). -/
theorem C7_witness :
    report_stage 0 5 7 = Except.error (RunError.notOptimal 0)
    ∧ feasible [sd2] (fun _ _ => false) (fun _ _ _ => false) :=
  C7_solver_failure_and_feasibility 0 (by decide) 5 7 [sd2]

/-- C8: mandatory dictionary lookups of `run_fleet_optimization` raise on a
missing key with no default substituted — a missing CO₂ price, a missing
Diesel quote, a missing alternative-fuel quote, or a missing Diesel/HFO
price (when its guard makes the lookup happen) each make the per-year cost
computation fail — whereas a missing retrofit cost/saving entry or newbuild
capex entry is recovered locally: it behaves exactly like a present entry
with value 0 and never surfaces as an error. -/
theorem C8_lookup_semantics (I : DictInputs) (sd : ShipData) (y : ℕ) :
    (I.co2Prices y = none →
      baseline_costE I sd y = none ∧ retro_costE I sd y = none
      ∧ ∀ f : Fuel, new_cost_opE I sd y f = none)
    ∧ (I.fuelLu y BASIC = none →
      baseline_costE I sd y = none ∧ retro_costE I sd y = none)
    ∧ (∀ f : Fuel, I.fuelLu y f = none → new_cost_opE I sd y f = none)
    ∧ (I.dieselPrices y = none → 0 < MJe sd → baseline_costE I sd y = none)
    ∧ (I.hfoPrices y = none → 0 < MJn sd → baseline_costE I sd y = none)
    ∧ (I.tCost sd.name y = none → I.tSave sd.name y = none →
      retro_costE I sd y = retro_costE (setTurbo I sd.name y 0 0) sd y)
    ∧ (∀ f : Fuel, I.nCost sd.name f y = none →
      new_cost_opE I sd y f = new_cost_opE (setNCost I sd.name f y 0) sd y f) :=
  ⟨fun h => ⟨baselineE_none_co2 h, retroE_none_co2 h, fun f => newE_none_co2 f h⟩,
   fun h => ⟨baselineE_none_diesel h, retroE_none_diesel h⟩,
   fun _ h => newE_none_quote h,
   fun h hM => baselineE_none_dprice h hM,
   fun h hM => baselineE_none_hprice h hM,
   fun hc hs => retroE_default hc hs,
   fun _ h => newE_default h⟩

/-- C8, witness: a missing CO₂ price and a missing Diesel quote each make the
baseline computation fail, while empty retrofit/newbuild tables behave
exactly like explicit zero entries. -/
theorem C8_witness :
    baseline_costE IEnoCo2 sd5 2025 = none
    ∧ baseline_costE IEnoDiesel sd5 2025 = none
    ∧ retro_costE IE0 sd5 2025 = retro_costE (setTurbo IE0 sd5.name 2025 0 0) sd5 2025
    ∧ new_cost_opE IE0 sd5 2025 Fuel.lpg
      = new_cost_opE (setNCost IE0 sd5.name Fuel.lpg 2025 0) sd5 2025 Fuel.lpg := by
  refine ⟨?_, ?_, ?_, ?_⟩
  · exact ((C8_lookup_semantics IEnoCo2 sd5 2025).1 rfl).1
  · exact ((C8_lookup_semantics IEnoDiesel sd5 2025).2.1 rfl).1
  · exact (C8_lookup_semantics IE0 sd5 2025).2.2.2.2.2.1 rfl rfl
  · exact (C8_lookup_semantics IE0 sd5 2025).2.2.2.2.2.2 Fuel.lpg rfl

/-- C9: for every ship whose old energy intensity is zero or missing, the
newbuild energy-scaling factor takes the unit fallback 1.0 instead of
dividing by the old intensity; all cost streams then use this well-defined
factor (they are total functions of it). -/
theorem C9_factor_fallback (sd : ShipData)
    (h : sd.mjOld = none ∨ sd.mjOld = some 0) : factor sd = 1 := by
  unfold factor
  rcases h with h | h
  · rw [h]
  · rw [h]
    norm_num

/-- C9, witness: the fallback on a ship with a missing old intensity (`sd2`)
and on a ship with a zero old intensity (`sd9`). -/
theorem C9_witness : factor sd2 = 1 ∧ factor sd9 = 1 :=
  ⟨C9_factor_fallback sd2 (Or.inl rfl), C9_factor_fallback sd9 (Or.inr rfl)⟩

/-- C10: the relative-savings computation divides by the fleet's baseline NPV
with no guard: after a successful solve, if `Σ pv_base` is 0 the reporting
stage raises a division-by-zero error instead of returning results, and for
every nonzero baseline NPV it returns the relative savings
`(baseline − optimized) / baseline · 100`. -/
theorem C10_savings_division (I : Inputs) (ships : List ShipData) (objOpt : ℚ) :
    ((ships.map fun sd => pv_base I sd).sum = 0 →
      report_stage LpStatusOptimal objOpt ((ships.map fun sd => pv_base I sd).sum)
        = Except.error RunError.zeroDivision)
    ∧ ((ships.map fun sd => pv_base I sd).sum ≠ 0 →
      report_stage LpStatusOptimal objOpt ((ships.map fun sd => pv_base I sd).sum)
        = Except.ok ⟨objOpt, (ships.map fun sd => pv_base I sd).sum,
            (ships.map fun sd => pv_base I sd).sum - objOpt,
            ((ships.map fun sd => pv_base I sd).sum - objOpt)
              / (ships.map fun sd => pv_base I sd).sum * 100⟩) := by
  constructor
  · intro h
    unfold report_stage pydiv
    rw [if_neg (not_not_intro rfl), if_pos h]
  · intro h
    unfold report_stage pydiv
    rw [if_neg (not_not_intro rfl), if_neg h]

/-- C10, witness: the all-zero fleet (`I2`, `sd2`) has baseline NPV 0 and the
reporting stage raises the division error; the fleet (`I1`, `sd1`) has
baseline NPV `(100/107)^5 ≠ 0` and the reporting stage returns the relative
savings. -/
theorem C10_witness :
    report_stage LpStatusOptimal 3 (([sd2].map fun sd => pv_base I2 sd).sum)
      = Except.error RunError.zeroDivision
    ∧ report_stage LpStatusOptimal 3 (([sd1].map fun sd => pv_base I1 sd).sum)
      = Except.ok ⟨3, ([sd1].map fun sd => pv_base I1 sd).sum,
          ([sd1].map fun sd => pv_base I1 sd).sum - 3,
          (([sd1].map fun sd => pv_base I1 sd).sum - 3)
            / ([sd1].map fun sd => pv_base I1 sd).sum * 100⟩ := by
  constructor
  · exact (C10_savings_division I2 [sd2] 3).1
      (by norm_num [pv_base, YEARS_FULL, baseline_cost, cost_eca, cost_noeca, baseline_co2_g,
        ma, I2, sd2, MJe, MJn, MJv, share, dfac, discount, quote0, BASIC])
  · apply (C10_savings_division I1 [sd1] 3).2
    have h : ([sd1].map fun sd => pv_base I1 sd).sum = (100/107)^5 := by
      norm_num [pv_base, YEARS_FULL, baseline_cost, cost_eca, cost_noeca, baseline_co2_g,
        ma, I1, sd1, MJe, MJn, MJv, share, dfac, discount, quote0, BASIC]
    rw [h]
    norm_num

end FleetOpt
